import Mathlib

/-!
Verification of the sentiment-timeline analytics pipeline.

The numeric JavaScript values are embedded as exact rationals (`ℚ`), UNIX
timestamps as integers, and the optional / possibly-undefined fields as
`Option`.  JavaScript string operations (`toLowerCase`, `includes`,
`substring`) are modelled over the underlying character lists, and the stable
ascending `Array.prototype.sort` is modelled by `List.mergeSort`, which is
stable.
-/

namespace SentimentTimeline

/-- JS `String.prototype.toLowerCase` (the sources are ASCII). -/
def toLowerCase (s : String) : String :=
  ⟨s.data.map Char.toLower⟩

/-- Helper for `includes`: does `needle` occur inside the character list? -/
def includesAux (needle : List Char) : List Char → Bool
  | [] => needle.isEmpty
  | c :: rest => needle.isPrefixOf (c :: rest) || includesAux needle rest

/-- JS `String.prototype.includes`. -/
def includes (hay needle : String) : Bool :=
  includesAux needle.data hay.data

/-- JS `String.prototype.substring(0, n)`. -/
def strTake (s : String) (n : Nat) : String :=
  ⟨s.data.take n⟩

/-- JS `a || b` on strings (empty string is falsy). -/
def jsOr (a b : String) : String :=
  if a ≠ "" then a else b

def LEFT_SOURCES : List String :=
  ["cnn", "msnbc", "nyt", "nytimes", "washington post", "huffpost", "vox",
   "slate", "the guardian"]

def RIGHT_SOURCES : List String :=
  ["fox", "foxnews", "breitbart", "wsj", "wall street journal", "daily wire",
   "newsmax", "oann", "the blaze"]

def SOCIAL_SOURCES : List String :=
  ["reddit", "r/", "bluesky", "bsky"]

/-- The raw search-result record.  `date` is UNIX seconds; `sentiment_score`
is `Option` because the transformer checks it against `undefined`;
`sentiment` and `bias` are optional fields. -/
structure SearchResult where
  source : String
  title : String
  url : String
  contents : String
  author : String
  date : Int
  sentiment_score : Option ℚ
  sentiment : Option String
  bias : Option String
deriving DecidableEq

/-- `isSocialSource` from the component. -/
def isSocialSource (r : SearchResult) : Bool :=
  SOCIAL_SOURCES.any (fun s => includes (toLowerCase r.source) s)
    || toLowerCase r.source = "reddit"

/-- The three-way source bucket. -/
inductive Category where
  | left
  | social
  | right
deriving DecidableEq

/-- The political-lean label. -/
inductive BiasLabel where
  | left
  | right
  | neutral
deriving DecidableEq

/-- `getSourceBias` from the component.  The JS truthiness guard
`if (result.bias)` is subsumed: a falsy `bias` matches neither literal, and a
truthy `bias` that is neither literal falls through to the keyword lists in
both renderings. -/
def getSourceBias (r : SearchResult) : BiasLabel :=
  if r.bias = some "left" then .left
  else if r.bias = some "right" then .right
  else if LEFT_SOURCES.any (fun s => includes (toLowerCase r.source) s) then .left
  else if RIGHT_SOURCES.any (fun s => includes (toLowerCase r.source) s) then .right
  else .neutral

/-- `categorizeSource` from the component. -/
def categorizeSource (r : SearchResult) : Category :=
  if SOCIAL_SOURCES.any (fun s => includes (toLowerCase r.source) s)
      || toLowerCase r.source = "reddit" then .social
  else if r.bias = some "left" then .left
  else if r.bias = some "right" then .right
  else if LEFT_SOURCES.any (fun s => includes (toLowerCase r.source) s) then .left
  else if RIGHT_SOURCES.any (fun s => includes (toLowerCase r.source) s) then .right
  else .social

/-- `Σx` of `calculateTrendLine`, accumulated exactly as in the source. -/
def sumX (data : List (ℚ × ℚ)) : ℚ :=
  data.foldl (fun acc d => acc + d.1) 0

/-- `Σy` of `calculateTrendLine`. -/
def sumY (data : List (ℚ × ℚ)) : ℚ :=
  data.foldl (fun acc d => acc + d.2) 0

/-- `Σxy` of `calculateTrendLine`. -/
def sumXY (data : List (ℚ × ℚ)) : ℚ :=
  data.foldl (fun acc d => acc + d.1 * d.2) 0

/-- `Σx²` of `calculateTrendLine`. -/
def sumXX (data : List (ℚ × ℚ)) : ℚ :=
  data.foldl (fun acc d => acc + d.1 * d.1) 0

/-- The design-matrix denominator `n·Σx² − (Σx)²`. -/
def denominator (data : List (ℚ × ℚ)) : ℚ :=
  (data.length : ℚ) * sumXX data - sumX data * sumX data

/-- `calculateTrendLine` from the component: closed-form two-variable
ordinary least squares, `none` on degenerate input. -/
def calculateTrendLine (data : List (ℚ × ℚ)) : Option (ℚ × ℚ) :=
  if data.length < 2 then none
  else if denominator data = 0 then none
  else
    let slope := ((data.length : ℚ) * sumXY data - sumX data * sumY data) / denominator data
    let intercept := (sumY data - slope * sumX data) / (data.length : ℚ)
    some (slope, intercept)

/-- The derived plot-point record, fields in source-object order. -/
structure DataPoint where
  x : ℚ
  y : ℚ
  z : ℚ
  category : Category
  bias : BiasLabel
  isSocial : Bool
  source : String
  title : String
  sentiment : String
  date : ℚ
  url : String
deriving DecidableEq

/-- The transformer's keep condition:
`r.date && r.sentiment_score !== undefined`. -/
def keepResult (r : SearchResult) : Bool :=
  decide (r.date ≠ 0) && r.sentiment_score.isSome

/-- The title fallback `r.title || r.contents?.substring(0, 60) + '...' || 'Untitled'`. -/
def deriveTitle (title contents : String) : String :=
  jsOr title (jsOr (strTake contents 60 ++ "...") "Untitled")

/-- One mapped element of `chartData` (the arrow body of the `.map`). -/
def mkPoint (r : SearchResult) : DataPoint where
  x := (r.date : ℚ) * 1000
  y := r.sentiment_score.getD 0
  z := |r.sentiment_score.getD 0| * 100 + 50
  category := categorizeSource r
  bias := getSourceBias r
  isSocial := isSocialSource r
  source := r.source
  title := deriveTitle r.title r.contents
  sentiment := r.sentiment.getD ""
  date := (r.date : ℚ) * 1000
  url := r.url

/-- The ascending comparator `(a, b) => a.x - b.x` as a `Bool` order. -/
def ptLE (a b : DataPoint) : Bool :=
  decide (a.x ≤ b.x)

/-- `selectedIndices.map(i => results[i]).filter(r => r !== undefined)`. -/
def selectedResults (results : List SearchResult) (selectedIndices : List Nat) :
    List SearchResult :=
  selectedIndices.filterMap (fun i => results[i]?)

/-- The `chartData` memo: filter out unusable records, map to plot points,
stable-sort ascending by time. -/
def chartData (results : List SearchResult) (selectedIndices : List Nat) :
    List DataPoint :=
  (((selectedResults results selectedIndices).filter keepResult).map mkPoint).mergeSort ptLE

/-- The four filter buttons. -/
inductive FilterType where
  | all
  | left
  | social
  | right
deriving DecidableEq

/-- `d.category === activeFilter` for the three category buttons. -/
def matchesCategory (c : Category) (f : FilterType) : Bool :=
  match f, c with
  | .left, .left => true
  | .social, .social => true
  | .right, .right => true
  | _, _ => false

/-- The `filteredData` memo. -/
def filteredData (cd : List DataPoint) (active : FilterType) : List DataPoint :=
  if active = .all then cd
  else cd.filter (fun d => matchesCategory d.category active)

/-- The summary-statistics record. -/
structure Stats where
  avg : ℚ
  positive : Nat
  negative : Nat
  neutral : Nat
deriving DecidableEq

/-- The `stats` memo. -/
def stats (fd : List DataPoint) : Stats :=
  if fd.length = 0 then { avg := 0, positive := 0, negative := 0, neutral := 0 }
  else
    let sum := fd.foldl (fun acc d => acc + d.y) 0
    { avg := sum / (fd.length : ℚ)
      positive := (fd.filter (fun d => decide (d.y > 0.1))).length
      negative := (fd.filter (fun d => decide (d.y < -0.1))).length
      neutral := (fd.filter (fun d => decide (d.y ≥ -0.1) && decide (d.y ≤ 0.1))).length }

/-- `Math.min(...xs)` over a spread list. -/
def listMin : List ℚ → ℚ
  | [] => 0
  | x :: xs => xs.foldl min x

/-- `Math.max(...xs)` over a spread list. -/
def listMax : List ℚ → ℚ
  | [] => 0
  | x :: xs => xs.foldl max x

/-- The `dateRange` memo; `now` is the external clock `Date.now()`.  The JS
padding expression `(max - min) * 0.05 || 3600000` substitutes one hour when
the product is falsy, i.e. zero. -/
def dateRange (cd : List DataPoint) (now : ℚ) : ℚ × ℚ :=
  if cd.length = 0 then (now - 86400000, now)
  else
    let dates := cd.map (fun d => d.x)
    let mn := listMin dates
    let mx := listMax dates
    let padding := if (mx - mn) * 0.05 = 0 then 3600000 else (mx - mn) * 0.05
    (mn - padding, mx + padding)

/-- The left-trend cohort filter inside the `trendLines` memo. -/
def leftData (cd : List DataPoint) (colorByBias : Bool) : List DataPoint :=
  cd.filter (fun d =>
    if colorByBias then
      decide (d.category = .left) || (d.isSocial && decide (d.bias = .left))
    else decide (d.category = .left))

/-- The right-trend cohort filter inside the `trendLines` memo. -/
def rightData (cd : List DataPoint) (colorByBias : Bool) : List DataPoint :=
  cd.filter (fun d =>
    if colorByBias then
      decide (d.category = .right) || (d.isSocial && decide (d.bias = .right))
    else decide (d.category = .right))

/-- `generateTrendPoints`: evaluate a fitted line at the domain endpoints,
clipping to `[-1, 1]`. -/
def generateTrendPoints (trend : Option (ℚ × ℚ)) (dmin dmax : ℚ) : List (ℚ × ℚ) :=
  match trend with
  | none => []
  | some (slope, intercept) =>
    [(dmin, max (-1) (min 1 (slope * dmin + intercept))),
     (dmax, max (-1) (min 1 (slope * dmax + intercept)))]

/-- The two rendered trend lines. -/
structure TrendLines where
  left : List (ℚ × ℚ)
  right : List (ℚ × ℚ)
deriving DecidableEq

/-- The `trendLines` memo. -/
def trendLines (cd : List DataPoint) (dr : ℚ × ℚ) (colorByBias : Bool) : TrendLines where
  left := generateTrendPoints
    (calculateTrendLine ((leftData cd colorByBias).map (fun d => (d.x, d.y)))) dr.1 dr.2
  right := generateTrendPoints
    (calculateTrendLine ((rightData cd colorByBias).map (fun d => (d.x, d.y)))) dr.1 dr.2

/-- All derived outputs of the component for one render pass. -/
structure TimelineView where
  chartData : List DataPoint
  filteredData : List DataPoint
  stats : Stats
  dateRange : ℚ × ℚ
  trends : TrendLines
deriving DecidableEq

/-- The whole derivation pipeline of the component. -/
def sentimentTimeline (results : List SearchResult) (selectedIndices : List Nat)
    (activeFilter : FilterType) (colorByBias : Bool) (now : ℚ) : TimelineView :=
  let cd := chartData results selectedIndices
  let fd := filteredData cd activeFilter
  { chartData := cd
    filteredData := fd
    stats := stats fd
    dateRange := dateRange cd now
    trends := trendLines cd (dateRange cd now) colorByBias }

/-- A social post with empty display fields, used to instantiate theorems. -/
def samplePost : SearchResult where
  source := "bluesky"
  title := "t"
  url := "u"
  contents := "c"
  author := "a"
  date := 100
  sentiment_score := some (1/5)
  sentiment := none
  bias := some "left"

/-- A plot point at time `t` with all display fields fixed, used to
instantiate theorems. -/
def samplePoint (t : ℚ) : DataPoint where
  x := t
  y := 0
  z := 50
  category := .social
  bias := .neutral
  isSocial := true
  source := "s"
  title := "t"
  sentiment := ""
  date := t
  url := "u"

theorem foldl_add_eq {α : Type} (f : α → ℚ) :
    ∀ (l : List α) (a : ℚ), l.foldl (fun acc d => acc + f d) a = a + (l.map f).sum := by
  intro l
  induction l with
  | nil => simp
  | cons x xs ih =>
    intro a
    simp only [List.foldl_cons, List.map_cons, List.sum_cons, ih]
    ring

theorem sumX_eq (data : List (ℚ × ℚ)) : sumX data = (data.map (fun p => p.1)).sum := by
  simpa using foldl_add_eq (fun p => p.1) data 0

theorem sumXX_eq (data : List (ℚ × ℚ)) :
    sumXX data = (data.map (fun p => p.1 * p.1)).sum := by
  simpa using foldl_add_eq (fun p => p.1 * p.1) data 0

theorem denominator_eq_zero_of_const (data : List (ℚ × ℚ)) (c : ℚ)
    (h : ∀ p ∈ data, p.1 = c) : denominator data = 0 := by
  have hx : sumX data = (data.length : ℚ) * c := by
    rw [sumX_eq]
    have hrep : data.map (fun p => p.1) = List.replicate data.length c := by
      rw [List.eq_replicate_iff]
      refine ⟨by simp, ?_⟩
      intro b hb
      obtain ⟨p, hp, rfl⟩ := List.mem_map.mp hb
      exact h p hp
    rw [hrep, List.sum_replicate, nsmul_eq_mul]
  have hxx : sumXX data = (data.length : ℚ) * (c * c) := by
    rw [sumXX_eq]
    have hrep : data.map (fun p => p.1 * p.1) = List.replicate data.length (c * c) := by
      rw [List.eq_replicate_iff]
      refine ⟨by simp, ?_⟩
      intro b hb
      obtain ⟨p, hp, rfl⟩ := List.mem_map.mp hb
      rw [h p hp]
    rw [hrep, List.sum_replicate, nsmul_eq_mul]
  unfold denominator
  rw [hx, hxx]
  ring

theorem calculateTrendLine_concrete :
    calculateTrendLine [((0 : ℚ), (0 : ℚ)), (10, 1)] = some (1/10, 0) := by
  norm_num [calculateTrendLine, denominator, sumX, sumY, sumXY, sumXX]

/-- Claim C1: `fitTrend` returns `none` exactly when the list has fewer than 2
points or the denominator `n·Σx² − (Σx)²` is zero (in particular when all
points share one `x`); otherwise it returns the closed-form least-squares
slope and intercept; on `(0,0),(10,1)` it returns slope `1/10`, intercept `0`,
and evaluation at domain `[0,10]` with clipping yields `(0,0)` and `(10,1)`. -/
theorem calculateTrendLine_spec : ∀ data : List (ℚ × ℚ),
    (calculateTrendLine data = none ↔ data.length < 2 ∨ denominator data = 0)
    ∧ (∀ c : ℚ, (∀ p ∈ data, p.1 = c) → denominator data = 0)
    ∧ (2 ≤ data.length → denominator data ≠ 0 →
        calculateTrendLine data = some
          (((data.length : ℚ) * sumXY data - sumX data * sumY data) / denominator data,
           (sumY data
              - ((data.length : ℚ) * sumXY data - sumX data * sumY data) / denominator data
                * sumX data) / (data.length : ℚ)))
    ∧ calculateTrendLine [((0 : ℚ), (0 : ℚ)), (10, 1)] = some (1/10, 0)
    ∧ generateTrendPoints (calculateTrendLine [((0 : ℚ), (0 : ℚ)), (10, 1)]) 0 10
        = [(0, 0), (10, 1)] := by
  intro data
  refine ⟨?_, denominator_eq_zero_of_const data, ?_, calculateTrendLine_concrete, ?_⟩
  · unfold calculateTrendLine
    split
    · next h => simp [h]
    · next h =>
      split
      · next h2 => simp [h, h2]
      · next h2 => simp [h, h2]
  · intro h1 h2
    unfold calculateTrendLine
    rw [if_neg (by omega), if_neg h2]
  · rw [calculateTrendLine_concrete]
    norm_num [generateTrendPoints, min_def, max_def]

/-- Witness for C1: a two-point list sharing one `x` value is degenerate. -/
theorem calculateTrendLine_spec_witness :
    calculateTrendLine [((5 : ℚ), (0 : ℚ)), (5, 1)] = none := by
  have h := calculateTrendLine_spec [((5 : ℚ), (0 : ℚ)), (5, 1)]
  exact h.1.mpr (Or.inr (h.2.1 5 (by decide)))

theorem categorizeSource_of_social (r : SearchResult) (h : isSocialSource r = true) :
    categorizeSource r = Category.social := by
  unfold isSocialSource at h
  unfold categorizeSource
  rw [if_pos h]

/-- Claim C3: social detection takes precedence over everything, and for
non-social results an explicit literal `bias` of `left`/`right` takes
precedence over the keyword lists. -/
theorem categorize_precedence_spec : ∀ r : SearchResult,
    (isSocialSource r = true → categorizeSource r = Category.social)
    ∧ (isSocialSource r = false → r.bias = some "left" → categorizeSource r = Category.left)
    ∧ (isSocialSource r = false → r.bias = some "right" → categorizeSource r = Category.right) := by
  intro r
  refine ⟨categorizeSource_of_social r, ?_, ?_⟩
  · intro h hb
    unfold isSocialSource at h
    unfold categorizeSource
    rw [if_neg (by simp [h]), if_pos hb]
  · intro h hb
    unfold isSocialSource at h
    unfold categorizeSource
    rw [if_neg (by simp [h]), if_neg (by simp [hb]), if_pos hb]

/-- Witness for C3: a social post is categorized `social`, and a
right-keyword source with an explicit `left` bias is categorized `left`. -/
theorem categorize_precedence_witness :
    categorizeSource samplePost = Category.social
    ∧ categorizeSource { samplePost with source := "foxnews" } = Category.left := by
  constructor
  · exact (categorize_precedence_spec samplePost).1 (by decide)
  · exact (categorize_precedence_spec _).2.1 (by decide) rfl

/-- Claim C4 (code bug): the derived title is `title` when non-empty, else
always the first 60 characters of `contents` followed by an ellipsis — the
`'Untitled'` fallback of the source is unreachable, so a record with empty
`title` and empty `contents` gets the title `"..."`, not `"Untitled"`. -/
theorem title_fallback_bug :
    (∀ t c : String, deriveTitle t c = if t ≠ "" then t else strTake c 60 ++ "...")
    ∧ deriveTitle "" "" = "..."
    ∧ deriveTitle "" "" ≠ "Untitled"
    ∧ (mkPoint { samplePost with title := "", contents := "" }).title = "..." := by
  have happ : ∀ c : String, strTake c 60 ++ "..." ≠ "" := by
    intro c h
    have h1 := congrArg String.length h
    rw [String.length_append] at h1
    have h2 : ("..." : String).length = 3 := by decide
    have h3 : ("" : String).length = 0 := by decide
    rw [h2, h3] at h1
    omega
  have hgen : ∀ t c : String, deriveTitle t c = if t ≠ "" then t else strTake c 60 ++ "..." := by
    intro t c
    unfold deriveTitle jsOr
    by_cases ht : t = ""
    · rw [if_neg (by simp [ht]), if_pos (happ c), if_neg (by simp [ht])]
    · rw [if_pos ht, if_pos ht]
  exact ⟨hgen, by decide, by decide, by decide⟩

/-- Claim C7: `aggregate` returns the arithmetic mean of sentiment (`0` on
the empty list), and the three bucket counts with strict thresholds `±0.1`
for positive/negative and the closed interval `[-0.1, 0.1]` for neutral. -/
theorem stats_spec : ∀ fd : List DataPoint,
    (stats fd).avg = (fd.map (fun d => d.y)).sum / (fd.length : ℚ)
    ∧ (stats fd).positive = fd.countP (fun d => decide (d.y > 0.1))
    ∧ (stats fd).negative = fd.countP (fun d => decide (d.y < -0.1))
    ∧ (stats fd).neutral = fd.countP (fun d => decide (-0.1 ≤ d.y ∧ d.y ≤ 0.1))
    ∧ stats [] = { avg := 0, positive := 0, negative := 0, neutral := 0 } := by
  intro fd
  match fd with
  | [] => exact ⟨by simp [stats], rfl, rfl, rfl, rfl⟩
  | x :: xs =>
    refine ⟨?_, ?_, ?_, ?_, rfl⟩
    · simp only [stats, List.length_cons, Nat.succ_ne_zero, if_false]
      rw [foldl_add_eq (fun d => d.y) (x :: xs) 0, zero_add]
    · simp only [stats, List.length_cons, Nat.succ_ne_zero, if_false]
      rw [List.countP_eq_length_filter]
    · simp only [stats, List.length_cons, Nat.succ_ne_zero, if_false]
      rw [List.countP_eq_length_filter]
    · simp only [stats, List.length_cons, Nat.succ_ne_zero, if_false]
      rw [List.countP_eq_length_filter]
      apply congrArg
      apply List.filter_congr
      intro a _
      simp

theorem bucket_partition_aux : ∀ l : List DataPoint,
    l.countP (fun d => decide (d.y > 0.1)) + l.countP (fun d => decide (d.y < -0.1))
      + l.countP (fun d => decide (d.y ≥ -0.1) && decide (d.y ≤ 0.1)) = l.length := by
  intro l
  induction l with
  | nil => rfl
  | cons x xs ih =>
    simp only [List.countP_cons, List.length_cons, ge_iff_le, gt_iff_lt] at ih ⊢
    by_cases h1 : (0.1 : ℚ) < x.y
    · have h2 : ¬ x.y < -(0.1 : ℚ) := by linarith
      have h3 : ¬ x.y ≤ (0.1 : ℚ) := by linarith
      simp [h1, h2, h3]
      omega
    · by_cases h2 : x.y < -(0.1 : ℚ)
      · have h3 : ¬ (-(0.1 : ℚ) ≤ x.y) := by linarith
        simp [h1, h2, h3]
        omega
      · have h3 : (-(0.1 : ℚ)) ≤ x.y := by linarith
        have h4 : x.y ≤ (0.1 : ℚ) := by linarith
        simp [h1, h2, h3, h4]
        omega

/-- Claim C10: the positive, negative and neutral bucket counts partition
the aggregated point list. -/
theorem stats_partition : ∀ fd : List DataPoint,
    (stats fd).positive + (stats fd).negative + (stats fd).neutral = fd.length := by
  intro fd
  match fd with
  | [] => rfl
  | x :: xs =>
    have h := bucket_partition_aux (x :: xs)
    simp only [stats, List.length_cons, Nat.succ_ne_zero, if_false]
    simp only [ge_iff_le, gt_iff_lt] at h ⊢
    rw [List.countP_eq_length_filter, List.countP_eq_length_filter,
      List.countP_eq_length_filter] at h
    exact h

theorem foldl_min_le_init : ∀ (xs : List ℚ) (a : ℚ), xs.foldl min a ≤ a := by
  intro xs
  induction xs with
  | nil => simp
  | cons x xs ih => intro a; exact le_trans (ih (min a x)) (min_le_left a x)

theorem foldl_min_le_mem : ∀ (xs : List ℚ) (a b : ℚ), b ∈ xs → xs.foldl min a ≤ b := by
  intro xs
  induction xs with
  | nil => intro a b h; cases h
  | cons x xs ih =>
    intro a b h
    rcases List.mem_cons.mp h with rfl | h
    · exact le_trans (foldl_min_le_init xs (min a b)) (min_le_right a b)
    · exact ih (min a x) b h

theorem le_foldl_min : ∀ (xs : List ℚ) (a c : ℚ),
    c ≤ a → (∀ b ∈ xs, c ≤ b) → c ≤ xs.foldl min a := by
  intro xs
  induction xs with
  | nil => intro a c h _; simpa using h
  | cons x xs ih =>
    intro a c h hb
    exact ih (min a x) c (le_min h (hb x (List.mem_cons_self x xs)))
      (fun b hbm => hb b (List.mem_cons_of_mem x hbm))

theorem init_le_foldl_max : ∀ (xs : List ℚ) (a : ℚ), a ≤ xs.foldl max a := by
  intro xs
  induction xs with
  | nil => simp
  | cons x xs ih => intro a; exact le_trans (le_max_left a x) (ih (max a x))

theorem mem_le_foldl_max : ∀ (xs : List ℚ) (a b : ℚ), b ∈ xs → b ≤ xs.foldl max a := by
  intro xs
  induction xs with
  | nil => intro a b h; cases h
  | cons x xs ih =>
    intro a b h
    rcases List.mem_cons.mp h with rfl | h
    · exact le_trans (le_max_right a b) (init_le_foldl_max xs (max a b))
    · exact ih (max a x) b h

theorem foldl_max_le : ∀ (xs : List ℚ) (a c : ℚ),
    a ≤ c → (∀ b ∈ xs, b ≤ c) → xs.foldl max a ≤ c := by
  intro xs
  induction xs with
  | nil => intro a c h _; simpa using h
  | cons x xs ih =>
    intro a c h hb
    exact ih (max a x) c (max_le h (hb x (List.mem_cons_self x xs)))
      (fun b hbm => hb b (List.mem_cons_of_mem x hbm))

theorem listMin_eq (l : List ℚ) (mn : ℚ) (h1 : mn ∈ l) (h2 : ∀ t ∈ l, mn ≤ t) :
    listMin l = mn := by
  match l with
  | [] => cases h1
  | x :: xs =>
    apply le_antisymm
    · rcases List.mem_cons.mp h1 with rfl | h
      · exact foldl_min_le_init xs mn
      · exact foldl_min_le_mem xs x mn h
    · exact le_foldl_min xs x mn (h2 x (List.mem_cons_self x xs))
        (fun b hb => h2 b (List.mem_cons_of_mem x hb))

theorem listMax_eq (l : List ℚ) (mx : ℚ) (h1 : mx ∈ l) (h2 : ∀ t ∈ l, t ≤ mx) :
    listMax l = mx := by
  match l with
  | [] => cases h1
  | x :: xs =>
    apply le_antisymm
    · exact foldl_max_le xs x mx (h2 x (List.mem_cons_self x xs))
        (fun b hb => h2 b (List.mem_cons_of_mem x hb))
    · rcases List.mem_cons.mp h1 with rfl | h
      · exact init_le_foldl_max xs mx
      · exact mem_le_foldl_max xs x mx h

/-- Claim C5: the domain is `[min − pad, max + pad]` over `x` with
`pad = (max − min) * 0.05`, the pad falling back to one hour when the range
is zero, and the empty set falling back to `[now − 24h, now]`. -/
theorem dateRange_spec : ∀ (cd : List DataPoint) (now mn mx : ℚ),
    (cd = [] → dateRange cd now = (now - 86400000, now))
    ∧ (mn ∈ cd.map (fun d => d.x) → (∀ t ∈ cd.map (fun d => d.x), mn ≤ t) →
       mx ∈ cd.map (fun d => d.x) → (∀ t ∈ cd.map (fun d => d.x), t ≤ mx) →
       dateRange cd now = if mx - mn = 0
         then (mn - 3600000, mx + 3600000)
         else (mn - (mx - mn) * 0.05, mx + (mx - mn) * 0.05)) := by
  intro cd now mn mx
  constructor
  · rintro rfl
    rfl
  · intro hmn hmnle hmx hmxle
    have hne : cd.length ≠ 0 := by
      intro h
      rw [List.length_eq_zero.mp h] at hmn
      cases hmn
    simp only [dateRange, hne, if_false]
    rw [listMin_eq _ mn hmn hmnle, listMax_eq _ mx hmx hmxle]
    by_cases hc : mx - mn = 0
    · rw [if_pos (by rw [hc]; ring), if_pos hc]
    · rw [if_neg (by simp [hc, mul_eq_zero]; norm_num), if_neg hc]

/-- Witness for C5: two points at times 0 and 10 give the padded domain
`[-1/2, 21/2]`. -/
theorem dateRange_spec_witness :
    dateRange [samplePoint 0, samplePoint 10] 99 = (-(1/2), 21/2) := by
  have h := (dateRange_spec [samplePoint 0, samplePoint 10] 99 0 10).2
    (by simp [samplePoint]) (by simp [samplePoint])
    (by simp [samplePoint]) (by simp [samplePoint])
  rw [h, if_neg (by norm_num)]
  norm_num

theorem ptLE_trans : ∀ (a b c : DataPoint), ptLE a b → ptLE b c → ptLE a c := by
  intro a b c hab hbc
  simp only [ptLE, decide_eq_true_eq] at hab hbc ⊢
  exact le_trans hab hbc

theorem ptLE_total : ∀ (a b : DataPoint), ptLE a b || ptLE b a := by
  intro a b
  simp only [ptLE]
  rcases le_total a.x b.x with h | h <;> simp [h]

/-- Claim C8: the transformed point sequence is sorted non-decreasing in `x`,
and the stable sort keeps points with equal timestamps in their (mapped)
input order: filtering either side at any timestamp gives the same list. -/
theorem chartData_sorted_stable : ∀ (results : List SearchResult) (idx : List Nat),
    (chartData results idx).Pairwise (fun a b => a.x ≤ b.x)
    ∧ ∀ t : ℚ, (chartData results idx).filter (fun p => decide (p.x = t)) =
        (((selectedResults results idx).filter keepResult).map mkPoint).filter
          (fun p => decide (p.x = t)) := by
  intro results idx
  constructor
  · simp only [chartData]
    refine (List.sorted_mergeSort ptLE_trans ptLE_total
      (((selectedResults results idx).filter keepResult).map mkPoint)).imp ?_
    intro a b hab
    simpa [ptLE] using hab
  · intro t
    simp only [chartData]
    set base := ((selectedResults results idx).filter keepResult).map mkPoint with hbase
    set q : DataPoint → Bool := fun p => decide (p.x = t) with hq
    have hc : (base.filter q).Pairwise (fun a b => ptLE a b = true) := by
      apply List.pairwise_of_forall_mem_list
      intro a ha b hb
      have ha2 := (List.mem_filter.mp ha).2
      have hb2 := (List.mem_filter.mp hb).2
      simp only [hq, decide_eq_true_eq] at ha2 hb2
      simp [ptLE, ha2, hb2]
    have h1 : List.Sublist (base.filter q) (base.mergeSort ptLE) :=
      List.sublist_mergeSort ptLE_trans ptLE_total hc (List.filter_sublist base)
    have h2 : List.Sublist (base.filter q) ((base.mergeSort ptLE).filter q) := by
      have h3 := h1.filter q
      rwa [List.filter_eq_self.mpr (fun a ha => (List.mem_filter.mp ha).2)] at h3
    have h4 : List.Perm ((base.mergeSort ptLE).filter q) (base.filter q) :=
      (List.mergeSort_perm base ptLE).filter q
    exact (h2.eq_of_length h4.length_eq.symm).symm

/-- Claim C9: the transformer is total — it silently keeps or drops each
record with no error output — and the derived set is exactly the image of
the selected records whose `date` is non-zero and whose `sentiment_score`
is defined. -/
theorem chartData_exclusion_spec : ∀ (results : List SearchResult) (idx : List Nat),
    (chartData results idx).Perm
      (((selectedResults results idx).filter
          (fun r => decide (r.date ≠ 0 ∧ r.sentiment_score ≠ none))).map mkPoint) := by
  intro results idx
  have hp : ((selectedResults results idx).filter keepResult) =
      (selectedResults results idx).filter
        (fun r => decide (r.date ≠ 0 ∧ r.sentiment_score ≠ none)) := by
    apply List.filter_congr
    intro r _
    cases hs : r.sentiment_score <;> simp [keepResult, hs]
  simp only [chartData, hp]
  exact List.mergeSort_perm _ ptLE

/-- Claim C2: with the toggle on, the left cohort is exactly the points with
category `left` plus the social points with bias `left` (symmetrically for
`right`); with the toggle off, only category decides, and social points
(whose category is always `social`) belong to neither cohort. -/
theorem trend_cohorts_spec : ∀ (results : List SearchResult) (idx : List Nat)
    (cb : Bool) (p : DataPoint),
    leftData (chartData results idx) cb = (chartData results idx).filter
      (fun d => decide (d.category = Category.left)
        || (cb && d.isSocial && decide (d.bias = BiasLabel.left)))
    ∧ rightData (chartData results idx) cb = (chartData results idx).filter
      (fun d => decide (d.category = Category.right)
        || (cb && d.isSocial && decide (d.bias = BiasLabel.right)))
    ∧ (cb = false → p.isSocial = true → p ∈ chartData results idx →
        p ∉ leftData (chartData results idx) cb
          ∧ p ∉ rightData (chartData results idx) cb) := by
  intro results idx cb p
  refine ⟨?_, ?_, ?_⟩
  · apply List.filter_congr
    intro d _
    cases cb <;> simp
  · apply List.filter_congr
    intro d _
    cases cb <;> simp
  · rintro rfl hsoc hmem
    have hcat : p.category = Category.social := by
      simp only [chartData, List.mem_mergeSort, List.mem_map] at hmem
      obtain ⟨r, hr, rfl⟩ := hmem
      exact categorizeSource_of_social r hsoc
    constructor
    · intro hin
      simp only [leftData, List.mem_filter] at hin
      simp [hcat] at hin
    · intro hin
      simp only [rightData, List.mem_filter] at hin
      simp [hcat] at hin

/-- Witness for C2: with the toggle off, a social post with an explicit
`left` bias is in neither cohort. -/
theorem trend_cohorts_witness :
    mkPoint samplePost ∉ leftData (chartData [samplePost] [0]) false
    ∧ mkPoint samplePost ∉ rightData (chartData [samplePost] [0]) false := by
  refine (trend_cohorts_spec [samplePost] [0] false (mkPoint samplePost)).2.2 rfl (by decide) ?_
  have hk : keepResult samplePost = true := by decide
  simp [chartData, selectedResults, hk]

/-- Claim C6: changing only the active filter never changes the computed
domain or the two trend-line endpoint sequences, because both are computed
from the full unfiltered transformed set. -/
theorem filter_independence : ∀ (results : List SearchResult) (idx : List Nat)
    (cb : Bool) (now : ℚ) (f1 f2 : FilterType),
    (sentimentTimeline results idx f1 cb now).dateRange
      = (sentimentTimeline results idx f2 cb now).dateRange
    ∧ (sentimentTimeline results idx f1 cb now).trends
      = (sentimentTimeline results idx f2 cb now).trends := by
  intro results idx cb now f1 f2
  exact ⟨rfl, rfl⟩

end SentimentTimeline
